import Mathlib

/-!
Shallow embedding of `src/lpid.py` (pydantic-prefixed-id): the `LPID` class —
its constructor, parsing pipeline `from_string`, generation, canonical string
form, ordering and equality operators, and time accessors — together with an
executable model of the external `KsuidMs` collaborator (sortable unique value
with a fixed 27-character base62 encoding).  Python strings are modelled as
lists of characters (Unicode code points).
-/

/-- Modelled from the Python runtime: the per-character Unicode `Alphabetic`
classification used by `str.isalpha`, tabulated for the Latin-1 range (code
points below 0x100).  Code points at 0x100 and above are outside the modelled
range and are classified `false`; no theorem below touches them. -/
def charAlpha (c : Char) : Bool :=
  decide ((65 ≤ c.toNat ∧ c.toNat ≤ 90) ∨ (97 ≤ c.toNat ∧ c.toNat ≤ 122) ∨
    c.toNat = 0xAA ∨ c.toNat = 0xB5 ∨ c.toNat = 0xBA ∨
    (0xC0 ≤ c.toNat ∧ c.toNat ≤ 0xD6) ∨ (0xD8 ≤ c.toNat ∧ c.toNat ≤ 0xF6) ∨
    (0xF8 ≤ c.toNat ∧ c.toNat ≤ 0xFF))

/-- Modelled from the Python runtime: Unicode uppercase (`Lu`) characters in
the Latin-1 range, as consulted by `str.islower`. -/
def charUpper (c : Char) : Bool :=
  decide ((65 ≤ c.toNat ∧ c.toNat ≤ 90) ∨
    (0xC0 ≤ c.toNat ∧ c.toNat ≤ 0xD6) ∨ (0xD8 ≤ c.toNat ∧ c.toNat ≤ 0xDE))

/-- Modelled from the Python runtime: Unicode lowercase characters (property
`Lowercase`) in the Latin-1 range, as consulted by `str.islower`. -/
def charLower (c : Char) : Bool :=
  decide ((97 ≤ c.toNat ∧ c.toNat ≤ 122) ∨
    c.toNat = 0xAA ∨ c.toNat = 0xB5 ∨ c.toNat = 0xBA ∨
    (0xDF ≤ c.toNat ∧ c.toNat ≤ 0xF6) ∨ (0xF8 ≤ c.toNat ∧ c.toNat ≤ 0xFF))

/-- A character is cased when it is lowercase or uppercase (Latin-1 has no
titlecase characters). -/
def charCased (c : Char) : Bool :=
  charLower c || charUpper c

/-- Python `str.isalpha`: the string is non-empty and every character is
alphabetic. -/
def pyStrIsAlpha (s : List Char) : Bool :=
  !s.isEmpty && s.all charAlpha

/-- Python `str.islower`: the string has at least one cased character and no
uppercase character. -/
def pyStrIsLower (s : List Char) : Bool :=
  s.any charCased && s.all (fun c => !charUpper c)

/-- Python `str.split(sep)` for a one-character separator: splits on every
occurrence of `sep`; the empty string yields `[[]]`. -/
def pySplit (sep : Char) : List Char → List (List Char)
  | [] => [[]]
  | c :: rest =>
    match pySplit sep rest with
    | [] => [[]]
    | q :: qs => if c = sep then [] :: q :: qs else (c :: q) :: qs

/-- Python string three-way comparison: lexicographic by code point. -/
def strCmp : List Char → List Char → Ordering
  | [], [] => .eq
  | [], _ :: _ => .lt
  | _ :: _, [] => .gt
  | a :: as, b :: bs =>
    if a.toNat < b.toNat then .lt
    else if b.toNat < a.toNat then .gt
    else strCmp as bs

/-- Python `a < b` on strings. -/
def pyStrLt (a b : List Char) : Bool :=
  decide (strCmp a b = Ordering.lt)

/-- Python `a > b` on strings. -/
def pyStrGt (a b : List Char) : Bool :=
  decide (strCmp a b = Ordering.gt)

/-- The KSUID base62 alphabet `0-9 A-Z a-z`, in value order. -/
def b62Chars : List Char :=
  ['0', '1', '2', '3', '4', '5', '6', '7', '8', '9',
   'A', 'B', 'C', 'D', 'E', 'F', 'G', 'H', 'I', 'J', 'K', 'L', 'M',
   'N', 'O', 'P', 'Q', 'R', 'S', 'T', 'U', 'V', 'W', 'X', 'Y', 'Z',
   'a', 'b', 'c', 'd', 'e', 'f', 'g', 'h', 'i', 'j', 'k', 'l', 'm',
   'n', 'o', 'p', 'q', 'r', 's', 't', 'u', 'v', 'w', 'x', 'y', 'z']

/-- Digit of value `d` in the base62 alphabet. -/
def base62Digit (d : Nat) : Char :=
  b62Chars.getD d '0'

/-- Index of a character in a list (first occurrence), used to look up a
character's base62 value. -/
def b62Index (c : Char) : List Char → Option Nat
  | [] => none
  | x :: xs => if x = c then some 0 else (b62Index c xs).map (· + 1)

/-- Base62 value of a character, `none` when outside the alphabet. -/
def charB62Val (c : Char) : Option Nat :=
  b62Index c b62Chars

/-- Left-to-right base62 decoding with an accumulator. -/
def b62DecodeAux (acc : Nat) : List Char → Option Nat
  | [] => some acc
  | c :: cs =>
    match charB62Val c with
    | none => none
    | some v => b62DecodeAux (acc * 62 + v) cs

/-- Numeric value of a base62 string, `none` on any character outside the
alphabet. -/
def val62 (s : List Char) : Option Nat :=
  b62DecodeAux 0 s

/-- Fixed-width base62 encoding of `n`, most significant digit first. -/
def natToB62 : Nat → Nat → List Char
  | 0, _ => []
  | w + 1, n => base62Digit (n / 62 ^ w) :: natToB62 w (n % 62 ^ w)

/-- Modelled from the spec: the external SortableUniqueValue collaborator
(`KsuidMs`).  It embeds a creation instant (milliseconds, a 48-bit field) and
a random payload (112 bits), packed into a 160-bit value whose canonical text
form is the fixed 27-character base62 encoding; it carries a total order with
the instant as primary sort key and exposes the embedded instant. -/
structure KsuidMs where
  tsMs : Nat
  payload : Nat
deriving DecidableEq, Repr

/-- The packed 160-bit numeric value of a `KsuidMs`. -/
def KsuidMs.wordVal (u : KsuidMs) : Nat :=
  u.tsMs * 2 ^ 112 + u.payload

/-- Decoding failures of the collaborator's strict base62 decoder. -/
inductive DecodeErr where
  | notBase62
  | overflow
deriving DecidableEq, Repr

/-- Modelled from the spec: the collaborator's strict base62 decoder — fails
on any character outside the alphabet and on values that do not fit the
160-bit layout.  The spec fixes its behaviour on 27-character canonical
strings; on other lengths it is modelled length-flexibly (accepting any
in-alphabet string whose value fits), matching the underlying library. -/
def KsuidMs.from_base62 (s : List Char) : Except DecodeErr KsuidMs :=
  match val62 s with
  | none => .error .notBase62
  | some n => if n < 2 ^ 160 then .ok ⟨n / 2 ^ 112, n % 2 ^ 112⟩ else .error .overflow

/-- Modelled from the spec: the collaborator's canonical 27-character base62
encoding. -/
def KsuidMs.to_base62 (u : KsuidMs) : List Char :=
  natToB62 27 u.wordVal

/-- Modelled from the spec: minting a fresh value seeded with instant `t`
(milliseconds) and independent entropy, packed into the fixed-width fields. -/
def KsuidMs.new (t entropy : Nat) : KsuidMs :=
  ⟨t % 2 ^ 48, entropy % 2 ^ 112⟩

/-- Modelled from the spec: the collaborator's total order, instant first,
then the random payload. -/
def ksuidLt (u v : KsuidMs) : Bool :=
  if u.tsMs < v.tsMs then true
  else if u.tsMs = v.tsMs then decide (u.payload < v.payload)
  else false

/-- Python `u > v` on `KsuidMs`: the flip of the total order. -/
def ksuidGt (u v : KsuidMs) : Bool :=
  ksuidLt v u

/-- Modelled from the spec: accessor for the embedded instant (milliseconds). -/
def KsuidMs.datetime (u : KsuidMs) : Nat :=
  u.tsMs

/-- Modelled from the spec: the embedded instant as seconds (Python returns a
float; modelled as an exact rational). -/
def KsuidMs.timestamp (u : KsuidMs) : ℚ :=
  (u.tsMs : ℚ) / 1000

/-- `LPID` (src/lpid.py): a prefixed identifier pairing a literal tag (field
`pfx`, the source's first attribute) with an embedded `KsuidMs`. -/
structure LPID where
  pfx : List Char
  uid : KsuidMs
deriving DecidableEq, Repr

/-- The distinct `ValueError` raise sites of `LPID.from_string`, one
constructor per message, each carrying the offending values. -/
inductive LpidError where
  | formatError (s : List Char)
  | badAlpha (p : List Char)
  | badLower (p : List Char)
  | mismatch (expected got : List Char)
  | uidEmpty
  | uidWrongLength (n : Nat)
  | malformedUid (e : DecodeErr)
deriving DecidableEq, Repr

/-- The `uid` argument of `LPID.__init__`: either an encoded string or a
`KsuidMs` instance. -/
inductive UidSource where
  | strSrc (s : List Char)
  | ksuidSrc (u : KsuidMs)
deriving DecidableEq, Repr

/-- `LPID.__init__`: stores the tag verbatim; a string `uid` goes through the
collaborator's strict decoder (whose failure propagates), a `KsuidMs` is
stored as-is. -/
def LPID.init (p : List Char) (src : UidSource) : Except DecodeErr LPID :=
  match src with
  | .strSrc s =>
    match KsuidMs.from_base62 s with
    | .error e => .error e
    | .ok u => .ok ⟨p, u⟩
  | .ksuidSrc u => .ok ⟨p, u⟩

/-- `LPID.__str__`: the canonical form, tag, underscore, encoded uid. -/
def LPID.str (x : LPID) : List Char :=
  x.pfx ++ '_' :: x.uid.to_base62

/-- A Python value an `LPID` may be compared against: another `LPID`, or any
value of a different kind. -/
inductive PyValue where
  | lpid (x : LPID)
  | other
deriving DecidableEq, Repr

/-- The `TypeError` raised by the ordering operators on kind mismatch. -/
inductive CmpErr where
  | incomparable
deriving DecidableEq, Repr

/-- `LPID.__eq__`: same-kind values compare by tag and uid; any other kind
compares unequal (no exception). -/
def LPID.eq (self : LPID) (o : PyValue) : Bool :=
  match o with
  | .lpid b => decide (self.pfx = b.pfx) && decide (self.uid = b.uid)
  | .other => false

/-- `LPID.__lt__`: equal tags compare by uid, differing tags by string order;
a different kind raises `TypeError`. -/
def LPID.lt (self : LPID) (o : PyValue) : Except CmpErr Bool :=
  match o with
  | .lpid b =>
    if self.pfx = b.pfx then .ok (ksuidLt self.uid b.uid)
    else .ok (pyStrLt self.pfx b.pfx)
  | .other => .error .incomparable

/-- `LPID.__gt__`: equal tags compare by uid, differing tags by string order;
a different kind raises `TypeError`. -/
def LPID.gt (self : LPID) (o : PyValue) : Except CmpErr Bool :=
  match o with
  | .lpid b =>
    if self.pfx = b.pfx then .ok (ksuidGt self.uid b.uid)
    else .ok (pyStrGt self.pfx b.pfx)
  | .other => .error .incomparable

/-- `LPID.datetime` property: reads through to the uid. -/
def LPID.datetime (x : LPID) : Nat :=
  x.uid.datetime

/-- `LPID.timestamp` property: reads through to the uid. -/
def LPID.timestamp (x : LPID) : ℚ :=
  x.uid.timestamp

/-- `LPID.from_string`: the validation pipeline — split on the underscore
into exactly two parts, check the tag's shape (`isalpha`, then `islower`),
check it against the expected tag, check the encoded part non-empty and of
length 27, then decode it; the first failing check raises. -/
def LPID.from_string (s p : List Char) : Except LpidError LPID :=
  match pySplit '_' s with
  | [pp, ee] =>
    if !pyStrIsAlpha pp then .error (.badAlpha pp)
    else if !pyStrIsLower pp then .error (.badLower pp)
    else if pp ≠ p then .error (.mismatch p pp)
    else if ee.isEmpty then .error .uidEmpty
    else if ee.length ≠ 27 then .error (.uidWrongLength ee.length)
    else
      match KsuidMs.from_base62 ee with
      | .error e => .error (.malformedUid e)
      | .ok u => .ok ⟨p, u⟩
  | _ => .error (.formatError s)

/-- `LPID.generate`: a fresh identifier for a trusted tag — mints a new
`KsuidMs` at instant `t` (with the generator's entropy made explicit) and
pairs it with the tag via the constructor's `KsuidMs` branch. -/
def LPID.generate (p : List Char) (t entropy : Nat) : LPID :=
  ⟨p, KsuidMs.new t entropy⟩

/-- The spec's error taxonomy, one kind per pipeline step; the two shape
raise sites map to `invalidPrefixShape`, the two length raise sites to
`invalidUidLength`. -/
inductive ErrKind where
  | format
  | invalidPrefixShape
  | prefixMismatch
  | invalidUidLength
  | malformedUid
deriving DecidableEq, Repr

/-- Classify a raise site into the spec's taxonomy. -/
def LpidError.kind : LpidError → ErrKind
  | .formatError _ => .format
  | .badAlpha _ => .invalidPrefixShape
  | .badLower _ => .invalidPrefixShape
  | .mismatch _ _ => .prefixMismatch
  | .uidEmpty => .invalidUidLength
  | .uidWrongLength _ => .invalidUidLength
  | .malformedUid _ => .malformedUid

/-- Does a parse outcome carry an `InvalidPrefixShape` failure? -/
def isShapeErr (r : Except LpidError LPID) : Bool :=
  match r with
  | .error e => decide (e.kind = ErrKind.invalidPrefixShape)
  | .ok _ => false

/-- Does a parse outcome carry an `InvalidUidLength` failure? -/
def isUidLenErr (r : Except LpidError LPID) : Bool :=
  match r with
  | .error e => decide (e.kind = ErrKind.invalidUidLength)
  | .ok _ => false

/-- Is an `Except` outcome a success? -/
def isOkB {ε α : Type} : Except ε α → Bool
  | .ok _ => true
  | .error _ => false

instance {ε α : Type} [DecidableEq ε] [DecidableEq α] : DecidableEq (Except ε α) := fun a b =>
  match a, b with
  | .ok x, .ok y =>
    if h : x = y then .isTrue (by rw [h]) else .isFalse (fun hh => by cases hh; exact h rfl)
  | .error e, .error f =>
    if h : e = f then .isTrue (by rw [h]) else .isFalse (fun hh => by cases hh; exact h rfl)
  | .ok _, .error _ => .isFalse (fun hh => by cases hh)
  | .error _, .ok _ => .isFalse (fun hh => by cases hh)

/-- The fixed-width encoding always has exactly the requested width. -/
theorem natToB62_length (w : Nat) : ∀ n, (natToB62 w n).length = w := by
  induction w with
  | zero => intro n; rfl
  | succ w ih => intro n; simp [natToB62, ih]

/-- Every base62 digit value looks up to its own character, which is in the
alphabet and is not the separator. -/
theorem b62digit_facts :
    ∀ d : Fin 62, charB62Val (base62Digit d.val) = some d.val ∧ base62Digit d.val ≠ '_' := by
  decide

/-- The separator is not in the base62 alphabet. -/
theorem charB62Val_underscore : charB62Val '_' = none := by
  decide

/-- The alphabet has 62 characters. -/
theorem b62Chars_length : b62Chars.length = 62 := by
  decide

/-- A successful alphabet lookup returns an in-range index whose character is
the one looked up. -/
theorem b62Index_spec (c : Char) :
    ∀ (l : List Char) (v : Nat), b62Index c l = some v → v < l.length ∧ l.getD v '0' = c := by
  intro l
  induction l with
  | nil => intro v h; simp [b62Index] at h
  | cons x xs ih =>
    intro v h
    by_cases hx : x = c
    · simp [b62Index, hx] at h
      subst h
      simp [hx]
    · simp [b62Index, hx] at h
      obtain ⟨w, hw, hv⟩ := h
      obtain ⟨h1, h2⟩ := ih w hw
      subst hv
      exact ⟨by simpa using h1, by simpa using h2⟩

/-- Decoding with an accumulator shifts the pure value by the string's
width. -/
theorem b62DecodeAux_shift :
    ∀ (s : List Char) (acc : Nat),
      b62DecodeAux acc s = (val62 s).map (fun n => acc * 62 ^ s.length + n) := by
  intro s
  induction s with
  | nil => intro acc; simp [b62DecodeAux, val62]
  | cons c cs ih =>
    intro acc
    simp only [b62DecodeAux, val62]
    cases hc : charB62Val c with
    | none => simp
    | some v =>
      show b62DecodeAux (acc * 62 + v) cs =
        Option.map (fun n => acc * 62 ^ (c :: cs).length + n) (b62DecodeAux (0 * 62 + v) cs)
      rw [ih (acc * 62 + v), ih (0 * 62 + v)]
      cases hcs : val62 cs with
      | none => simp
      | some n =>
        simp only [Option.map_some', Option.some_inj, List.length_cons]
        rw [pow_succ]
        ring

/-- A decoded value is bounded by the width of its string. -/
theorem val62_lt : ∀ (s : List Char) (n : Nat), val62 s = some n → n < 62 ^ s.length := by
  intro s
  induction s with
  | nil =>
    intro n h
    simp [val62, b62DecodeAux] at h
    subst h
    norm_num
  | cons c cs ih =>
    intro n h
    simp only [val62, b62DecodeAux] at h
    cases hc : charB62Val c with
    | none => rw [hc] at h; exact absurd h (by simp)
    | some v =>
      rw [hc] at h
      simp only [zero_mul, zero_add] at h
      rw [b62DecodeAux_shift] at h
      cases hcs : val62 cs with
      | none => rw [hcs] at h; exact absurd h (by simp)
      | some m =>
        rw [hcs] at h
        simp only [Option.map_some', Option.some_inj] at h
        have hm := ih m hcs
        have hv : v < 62 := by
          have := (b62Index_spec c b62Chars v hc).1
          rwa [b62Chars_length] at this
        subst h
        calc v * 62 ^ cs.length + m < v * 62 ^ cs.length + 62 ^ cs.length := by omega
          _ = (v + 1) * 62 ^ cs.length := by ring
          _ ≤ 62 * 62 ^ cs.length := Nat.mul_le_mul_right _ (by omega)
          _ = 62 ^ (cs.length + 1) := by rw [pow_succ]; ring
          _ = 62 ^ (c :: cs).length := by simp

/-- Encoding then decoding returns the value, for values that fit. -/
theorem val62_encode : ∀ (w n : Nat), n < 62 ^ w → val62 (natToB62 w n) = some n := by
  intro w
  induction w with
  | zero =>
    intro n h
    simp at h
    subst h
    rfl
  | succ w ih =>
    intro n h
    have hpos : 0 < 62 ^ w := Nat.pos_pow_of_pos w (by omega)
    have hhi : n / 62 ^ w < 62 := by
      rw [Nat.div_lt_iff_lt_mul hpos]
      calc n < 62 ^ (w + 1) := h
        _ = 62 * 62 ^ w := by rw [pow_succ]; ring
    have hdig := b62digit_facts ⟨n / 62 ^ w, hhi⟩
    simp only [natToB62, val62, b62DecodeAux]
    rw [hdig.1]
    simp only [zero_mul, zero_add]
    rw [b62DecodeAux_shift]
    rw [ih (n % 62 ^ w) (Nat.mod_lt _ hpos)]
    simp only [Option.map_some', Option.some_inj, natToB62_length]
    calc n / 62 ^ w * 62 ^ w + n % 62 ^ w
        = 62 ^ w * (n / 62 ^ w) + n % 62 ^ w := by ring
      _ = n := Nat.div_add_mod n (62 ^ w)


/-- Decoding then re-encoding at the string's own width returns the string. -/
theorem natToB62_val62 : ∀ (s : List Char) (n : Nat), val62 s = some n → natToB62 s.length n = s := by
  intro s
  induction s with
  | nil =>
    intro n h
    simp [val62, b62DecodeAux] at h
    subst h
    rfl
  | cons c cs ih =>
    intro n h
    simp only [val62, b62DecodeAux] at h
    cases hc : charB62Val c with
    | none => rw [hc] at h; exact absurd h (by simp)
    | some v =>
      rw [hc] at h
      simp only [zero_mul, zero_add] at h
      rw [b62DecodeAux_shift] at h
      cases hcs : val62 cs with
      | none => rw [hcs] at h; exact absurd h (by simp)
      | some m =>
        rw [hcs] at h
        simp only [Option.map_some', Option.some_inj] at h
        have hm := val62_lt cs m hcs
        have hpos : 0 < 62 ^ cs.length := pow_pos (by omega) _
        subst h
        have hdiv : (v * 62 ^ cs.length + m) / 62 ^ cs.length = v := by
          rw [mul_comm, Nat.mul_add_div hpos, Nat.div_eq_of_lt hm, Nat.add_zero]
        have hmod : (v * 62 ^ cs.length + m) % 62 ^ cs.length = m := by
          rw [mul_comm, Nat.mul_add_mod, Nat.mod_eq_of_lt hm]
        have hdig : base62Digit v = c := (b62Index_spec c b62Chars v hc).2
        simp only [List.length_cons, natToB62, hdiv, hmod, hdig, ih m hcs]

/-- Decoding succeeds only when every character is in the alphabet, so the
separator never occurs in a decodable string. -/
theorem b62DecodeAux_no_sep :
    ∀ (s : List Char) (acc n : Nat), b62DecodeAux acc s = some n → '_' ∉ s := by
  intro s
  induction s with
  | nil => intro acc n _ h; simp at h
  | cons c cs ih =>
    intro acc n h hmem
    simp only [b62DecodeAux] at h
    cases hc : charB62Val c with
    | none => rw [hc] at h; exact absurd h (by simp)
    | some v =>
      rw [hc] at h
      rcases List.mem_cons.mp hmem with hm | hm
      · rw [← hm] at hc
        rw [charB62Val_underscore] at hc
        exact absurd hc (by simp)
      · exact ih (acc * 62 + v) n h hm

/-- The separator never occurs in a decodable string. -/
theorem val62_no_sep (s : List Char) (n : Nat) (h : val62 s = some n) : '_' ∉ s :=
  b62DecodeAux_no_sep s 0 n h

/-- The separator is not alphabetic. -/
theorem charAlpha_underscore : charAlpha '_' = false := by
  decide

/-- A string passing `isalpha` contains no separator. -/
theorem pyStrIsAlpha_no_sep (p : List Char) (h : pyStrIsAlpha p = true) : '_' ∉ p := by
  intro hmem
  simp only [pyStrIsAlpha, Bool.and_eq_true, List.all_eq_true] at h
  have h2 := h.2 '_' hmem
  rw [charAlpha_underscore] at h2
  exact Bool.false_ne_true h2

/-- Splitting never yields the empty list of parts. -/
theorem pySplit_ne_nil (sep : Char) : ∀ s, pySplit sep s ≠ [] := by
  intro s
  induction s with
  | nil => simp [pySplit]
  | cons c cs ih =>
    simp only [pySplit]
    cases h : pySplit sep cs with
    | nil => simp
    | cons q qs => by_cases hc : c = sep <;> simp [hc]

/-- A string without the separator splits into itself alone. -/
theorem pySplit_no_sep (sep : Char) : ∀ s, sep ∉ s → pySplit sep s = [s] := by
  intro s
  induction s with
  | nil => intro _; rfl
  | cons c cs ih =>
    intro h
    have hcs : sep ∉ cs := fun hm => h (List.mem_cons_of_mem c hm)
    have hc : c ≠ sep := by intro he; exact h (by simp [he])
    simp only [pySplit, ih hcs]
    simp [hc]

/-- A leading separator contributes an empty first part. -/
theorem pySplit_sep_cons (sep : Char) (s : List Char) :
    pySplit sep (sep :: s) = [] :: pySplit sep s := by
  simp only [pySplit]
  cases h : pySplit sep s with
  | nil => exact absurd h (pySplit_ne_nil sep s)
  | cons q qs => simp

/-- Splitting around one separator occurrence peels off the part before it. -/
theorem pySplit_append (sep : Char) :
    ∀ (p s : List Char), sep ∉ p → pySplit sep (p ++ sep :: s) = p :: pySplit sep s := by
  intro p
  induction p with
  | nil => intro s _; simpa using pySplit_sep_cons sep s
  | cons c p ih =>
    intro s h
    have hc : c ≠ sep := by intro he; exact h (by simp [he])
    have hp : sep ∉ p := fun hm => h (List.mem_cons_of_mem c hm)
    show (match pySplit sep (p ++ sep :: s) with
        | [] => [[]]
        | q :: qs => if c = sep then [] :: q :: qs else (c :: q) :: qs) =
      (c :: p) :: pySplit sep s
    rw [ih s hp]
    simp [hc]

/-- A string with exactly one separator splits into exactly its two parts. -/
theorem pySplit_two (sep : Char) (p s : List Char) (hp : sep ∉ p) (hs : sep ∉ s) :
    pySplit sep (p ++ sep :: s) = [p, s] := by
  rw [pySplit_append sep p s hp, pySplit_no_sep sep s hs]

/-- A non-empty ASCII-lowercase string passes both Python shape checks. -/
theorem az_shape (p : List Char) (hne : p ≠ [])
    (h : ∀ c ∈ p, 97 ≤ c.toNat ∧ c.toNat ≤ 122) :
    pyStrIsAlpha p = true ∧ pyStrIsLower p = true := by
  cases p with
  | nil => exact absurd rfl hne
  | cons c cs =>
    constructor
    · simp only [pyStrIsAlpha, Bool.and_eq_true, List.all_eq_true]
      refine ⟨by simp, ?_⟩
      intro x hx
      have hb := h x hx
      simp only [charAlpha, decide_eq_true_eq]
      omega
    · simp only [pyStrIsLower, Bool.and_eq_true, List.any_eq_true, List.all_eq_true]
      constructor
      · refine ⟨c, by simp, ?_⟩
        have hb := h c (by simp)
        simp only [charCased, charLower, charUpper, Bool.or_eq_true, decide_eq_true_eq]
        omega
      · intro x hx
        have hb := h x hx
        simp only [charUpper, Bool.not_eq_true', decide_eq_false_iff_not]
        omega

/-- The packed value of a `KsuidMs` with in-range fields fits in 160 bits. -/
theorem KsuidMs.wordVal_lt (u : KsuidMs) (h1 : u.tsMs < 2 ^ 48) (h2 : u.payload < 2 ^ 112) :
    u.wordVal < 2 ^ 160 := by
  unfold KsuidMs.wordVal
  calc u.tsMs * 2 ^ 112 + u.payload < u.tsMs * 2 ^ 112 + 2 ^ 112 := by omega
    _ = (u.tsMs + 1) * 2 ^ 112 := by ring
    _ ≤ 2 ^ 48 * 2 ^ 112 := Nat.mul_le_mul_right _ (by omega)
    _ = 2 ^ 160 := by norm_num

/-- Any 160-bit value fits in 27 base62 digits. -/
theorem two_pow_160_lt : (2 : Nat) ^ 160 < 62 ^ 27 := by
  decide

/-- The collaborator's decoder inverts its encoder on in-range values. -/
theorem ksuid_decode_encode (u : KsuidMs) (h1 : u.tsMs < 2 ^ 48) (h2 : u.payload < 2 ^ 112) :
    KsuidMs.from_base62 u.to_base62 = .ok u := by
  have hlt : u.wordVal < 2 ^ 160 := u.wordVal_lt h1 h2
  have hlt2 : u.wordVal < 62 ^ 27 := lt_trans hlt two_pow_160_lt
  have hdiv : u.wordVal / 2 ^ 112 = u.tsMs := by
    unfold KsuidMs.wordVal
    rw [mul_comm, Nat.mul_add_div (pow_pos (by omega) 112), Nat.div_eq_of_lt h2, Nat.add_zero]
  have hmod : u.wordVal % 2 ^ 112 = u.payload := by
    unfold KsuidMs.wordVal
    rw [mul_comm, Nat.mul_add_mod, Nat.mod_eq_of_lt h2]
  unfold KsuidMs.from_base62 KsuidMs.to_base62
  rw [val62_encode 27 u.wordVal hlt2]
  show (if u.wordVal < 2 ^ 160 then
      Except.ok ⟨u.wordVal / 2 ^ 112, u.wordVal % 2 ^ 112⟩
    else Except.error DecodeErr.overflow) = Except.ok u
  rw [if_pos hlt, hdiv, hmod]

/-- A successful strict decode of a 27-character string re-encodes to the
same string, and its fields are in range. -/
theorem ksuid_encode_decode (s : List Char) (u : KsuidMs)
    (h : KsuidMs.from_base62 s = .ok u) (hlen : s.length = 27) :
    KsuidMs.to_base62 u = s ∧ u.tsMs < 2 ^ 48 ∧ u.payload < 2 ^ 112 := by
  unfold KsuidMs.from_base62 at h
  cases hv : val62 s with
  | none => rw [hv] at h; exact absurd h (by simp)
  | some n =>
    rw [hv] at h
    change (if n < 2 ^ 160 then
        Except.ok ⟨n / 2 ^ 112, n % 2 ^ 112⟩
      else Except.error DecodeErr.overflow) = Except.ok u at h
    by_cases hn : n < 2 ^ 160
    · rw [if_pos hn] at h
      simp only [Except.ok.injEq] at h
      subst h
      have hts : n / 2 ^ 112 < 2 ^ 48 := by
        rw [Nat.div_lt_iff_lt_mul (pow_pos (by omega) 112)]
        calc n < 2 ^ 160 := hn
          _ = 2 ^ 48 * 2 ^ 112 := by norm_num
      refine ⟨?_, hts, Nat.mod_lt _ (pow_pos (by omega) 112)⟩
      unfold KsuidMs.to_base62 KsuidMs.wordVal
      have hword : n / 2 ^ 112 * 2 ^ 112 + n % 2 ^ 112 = n := by
        rw [mul_comm]
        exact Nat.div_add_mod n (2 ^ 112)
      rw [hword, ← hlen]
      exact natToB62_val62 s n hv
    · rw [if_neg hn] at h
      exact absurd h (by simp)

/-- Unfolding `from_string` once the split shape is known. -/
theorem from_string_eq (s p pp ee : List Char) (hps : pySplit '_' s = [pp, ee]) :
    LPID.from_string s p =
      (if !pyStrIsAlpha pp then .error (.badAlpha pp)
       else if !pyStrIsLower pp then .error (.badLower pp)
       else if pp ≠ p then .error (.mismatch p pp)
       else if ee.isEmpty then .error .uidEmpty
       else if ee.length ≠ 27 then .error (.uidWrongLength ee.length)
       else
         match KsuidMs.from_base62 ee with
         | .error e => .error (.malformedUid e)
         | .ok u => .ok ⟨p, u⟩) := by
  unfold LPID.from_string
  rw [hps]

/-- Round-trip core: an identifier whose tag passes both shape checks and
whose uid has in-range fields parses back from its canonical form. -/
theorem roundtrip_core (p : List Char) (u : KsuidMs)
    (ha : pyStrIsAlpha p = true) (hl : pyStrIsLower p = true)
    (h1 : u.tsMs < 2 ^ 48) (h2 : u.payload < 2 ^ 112) :
    LPID.from_string (LPID.str ⟨p, u⟩) p = .ok ⟨p, u⟩ := by
  have hdec := ksuid_decode_encode u h1 h2
  have hlt2 : u.wordVal < 62 ^ 27 := lt_trans (u.wordVal_lt h1 h2) two_pow_160_lt
  have hv : val62 (KsuidMs.to_base62 u) = some u.wordVal := val62_encode 27 u.wordVal hlt2
  have hps : pySplit '_' (LPID.str ⟨p, u⟩) = [p, KsuidMs.to_base62 u] :=
    pySplit_two '_' p (KsuidMs.to_base62 u) (pyStrIsAlpha_no_sep p ha) (val62_no_sep _ _ hv)
  have hlen : (KsuidMs.to_base62 u).length = 27 := natToB62_length 27 _
  have hemp : (KsuidMs.to_base62 u).isEmpty = false := by
    cases hee : KsuidMs.to_base62 u with
    | nil => rw [hee] at hlen; simp at hlen
    | cons a as => rfl
  rw [from_string_eq _ p _ _ hps]
  simp [ha, hl, hemp, hlen, hdec]

/-- Freshly minted uids have in-range fields. -/
theorem KsuidMs.new_wf (t entropy : Nat) :
    (KsuidMs.new t entropy).tsMs < 2 ^ 48 ∧ (KsuidMs.new t entropy).payload < 2 ^ 112 :=
  ⟨Nat.mod_lt _ (pow_pos (by omega) 48), Nat.mod_lt _ (pow_pos (by omega) 112)⟩

/-- Inversion of a successful parse: the input split into the expected tag
(which passed both shape checks) and a 27-character encoded part that decodes
to the returned uid. -/
theorem from_string_ok_inv (s p : List Char) (x : LPID)
    (h : LPID.from_string s p = .ok x) :
    ∃ ee, pySplit '_' s = [p, ee] ∧ pyStrIsAlpha p = true ∧ pyStrIsLower p = true ∧
      ee.length = 27 ∧ KsuidMs.from_base62 ee = .ok x.uid ∧ x.pfx = p := by
  rcases hps : pySplit '_' s with _ | ⟨pp, _ | ⟨ee, _ | ⟨z, zs⟩⟩⟩
  · simp [LPID.from_string, hps] at h
  · simp [LPID.from_string, hps] at h
  · rw [from_string_eq s p pp ee hps] at h
    by_cases ha : pyStrIsAlpha pp = true
    · by_cases hl : pyStrIsLower pp = true
      · rw [if_neg (by simp [ha]), if_neg (by simp [hl])] at h
        by_cases hpe : pp = p
        · rw [if_neg (by simp [hpe])] at h
          by_cases hemp : ee.isEmpty = true
          · rw [if_pos hemp] at h
            exact absurd h (by simp)
          · rw [if_neg hemp] at h
            by_cases hlen : ee.length = 27
            · rw [if_neg (by simp [hlen])] at h
              cases hfb : KsuidMs.from_base62 ee with
              | error e =>
                rw [hfb] at h
                exact absurd h (by simp)
              | ok u =>
                rw [hfb] at h
                have h2 : Except.ok (⟨p, u⟩ : LPID) = Except.ok x := h
                simp only [Except.ok.injEq] at h2
                subst hpe
                refine ⟨ee, rfl, ha, hl, hlen, ?_, ?_⟩
                · rw [← h2]
                  exact hfb
                · rw [← h2]
            · rw [if_pos (by simp [hlen])] at h
              exact absurd h (by simp)
        · rw [if_pos hpe] at h
          exact absurd h (by simp)
      · have hl2 : pyStrIsLower pp = false := by
          cases hb : pyStrIsLower pp
          · rfl
          · exact absurd hb hl
        rw [if_neg (by simp [ha]), if_pos (by simp [hl2])] at h
        exact absurd h (by simp)
    · have ha2 : pyStrIsAlpha pp = false := by
        cases hb : pyStrIsAlpha pp
        · rfl
        · exact absurd hb ha
      rw [if_pos (by simp [ha2])] at h
      exact absurd h (by simp)
  · simp [LPID.from_string, hps] at h

/-- The pipeline stages after the two shape checks never produce an
`InvalidPrefixShape` failure. -/
theorem isShapeErr_tail (p pp ee : List Char) :
    isShapeErr
      (if pp ≠ p then Except.error (LpidError.mismatch p pp)
       else if ee.isEmpty then Except.error LpidError.uidEmpty
       else if ee.length ≠ 27 then Except.error (LpidError.uidWrongLength ee.length)
       else
         match KsuidMs.from_base62 ee with
         | .error e => Except.error (LpidError.malformedUid e)
         | .ok u => Except.ok ⟨p, u⟩) = false := by
  split_ifs with h1 h2 h3
  · rfl
  · rfl
  · rfl
  · cases KsuidMs.from_base62 ee with
    | error e => rfl
    | ok u => rfl

/-- C1 counterexample: `generate` trusts its tag, so the identifier generated
with the uppercase tag "AB" serialises to "AB_<27 digits>", which
`from_string` rejects at the `islower` shape check instead of succeeding and
returning an identifier equal to the generated one. -/
theorem lpid_C1_cex :
    LPID.from_string (LPID.str (LPID.generate ['A', 'B'] 0 0))
      (LPID.generate ['A', 'B'] 0 0).pfx = .error (.badLower ['A', 'B'])
    ∧ LPID.from_string (LPID.str (LPID.generate ['A', 'B'] 0 0))
      (LPID.generate ['A', 'B'] 0 0).pfx ≠ .ok (LPID.generate ['A', 'B'] 0 0) := by
  constructor
  · decide
  · decide

/-- C1 (amended): `fromString(str(x), x.prefix)` succeeds and returns an
identifier equal to `x` for every `x` obtained from `generate` whose tag
passes the parser's two shape checks (in particular every tag of lowercase
a–z characters), and unconditionally for every `x` obtained from
`from_string`. -/
theorem lpid_C1 :
    (∀ (p : List Char) (t entropy : Nat), pyStrIsAlpha p = true → pyStrIsLower p = true →
      LPID.from_string (LPID.str (LPID.generate p t entropy))
        (LPID.generate p t entropy).pfx = .ok (LPID.generate p t entropy))
    ∧ (∀ (s p : List Char) (x : LPID), LPID.from_string s p = .ok x →
      LPID.from_string (LPID.str x) x.pfx = .ok x) := by
  constructor
  · intro p t entropy ha hl
    have hwf := KsuidMs.new_wf t entropy
    exact roundtrip_core p (KsuidMs.new t entropy) ha hl hwf.1 hwf.2
  · intro s p x h
    obtain ⟨ee, hps, ha, hl, hlen, hfb, hpfx⟩ := from_string_ok_inv s p x h
    obtain ⟨henc, h1, h2⟩ := ksuid_encode_decode ee x.uid hfb hlen
    have hrt := roundtrip_core p x.uid ha hl h1 h2
    have hx : x = ⟨p, x.uid⟩ := by rw [← hpfx]
    rw [← hx] at hrt
    rw [hpfx]
    exact hrt

/-- C1 witness: the round-trip equations at the concrete tag "usr", both for
a generated identifier and for a parsed one. -/
theorem lpid_C1_witness :
    LPID.from_string (LPID.str (LPID.generate ['u', 's', 'r'] 5 7))
      (LPID.generate ['u', 's', 'r'] 5 7).pfx = .ok (LPID.generate ['u', 's', 'r'] 5 7)
    ∧ LPID.from_string (LPID.str (⟨['u', 's', 'r'], ⟨0, 0⟩⟩ : LPID))
      (⟨['u', 's', 'r'], ⟨0, 0⟩⟩ : LPID).pfx = .ok ⟨['u', 's', 'r'], ⟨0, 0⟩⟩ :=
  ⟨lpid_C1.1 ['u', 's', 'r'] 5 7 (by decide) (by decide),
   lpid_C1.2 (['u', 's', 'r'] ++ '_' :: List.replicate 27 '0') ['u', 's', 'r']
     ⟨['u', 's', 'r'], ⟨0, 0⟩⟩ (by decide)⟩

/-- The concrete input refuting C2: the tag "é" followed by the separator and
27 zero digits. -/
def c2str : List Char :=
  'é' :: '_' :: List.replicate 27 '0'

/-- C2 counterexample: the part before the separator is "é" — non-empty and
containing a character outside ASCII a–z — yet `from_string` does not raise
`InvalidPrefixShape`: Python's Unicode-aware `isalpha`/`islower` accept "é",
and the parse succeeds. -/
theorem lpid_C2_cex :
    (pySplit '_' c2str).head? = some ['é']
    ∧ ¬(97 ≤ ('é').toNat ∧ ('é').toNat ≤ 122)
    ∧ isShapeErr (LPID.from_string c2str ['é']) = false
    ∧ LPID.from_string c2str ['é'] = .ok ⟨['é'], ⟨0, 0⟩⟩ := by
  refine ⟨by decide, by decide, by decide, by decide⟩

/-- C2 (amended): given that the input splits into two parts, `from_string`
raises `InvalidPrefixShape` exactly when the first part fails Python's
`isalpha`-then-`islower` test (a Unicode-aware superset of `^[a-z]+$`); in
particular every non-empty all-ASCII-lowercase first part passes the shape
check, but a part may contain characters outside a–z (e.g. "é") and still
pass. -/
theorem lpid_C2 (s p pp ee : List Char) (hps : pySplit '_' s = [pp, ee]) :
    (isShapeErr (LPID.from_string s p) = true ↔
      ¬(pyStrIsAlpha pp = true ∧ pyStrIsLower pp = true))
    ∧ ((pp ≠ [] ∧ ∀ c ∈ pp, 97 ≤ c.toNat ∧ c.toNat ≤ 122) →
        isShapeErr (LPID.from_string s p) = false) := by
  rw [from_string_eq s p pp ee hps]
  by_cases ha : pyStrIsAlpha pp = true
  · by_cases hl : pyStrIsLower pp = true
    · rw [if_neg (by simp [ha]), if_neg (by simp [hl])]
      constructor
      · simp only [isShapeErr_tail p pp ee, ha, hl]
        simp
      · intro _
        exact isShapeErr_tail p pp ee
    · have hl2 : pyStrIsLower pp = false := by
        cases hb : pyStrIsLower pp
        · rfl
        · exact absurd hb hl
      rw [if_neg (by simp [ha]), if_pos (by simp [hl2])]
      constructor
      · constructor
        · intro _ hcon
          exact hl hcon.2
        · intro _
          rfl
      · intro hcon
        exact absurd (az_shape pp hcon.1 hcon.2).2 hl
  · have ha2 : pyStrIsAlpha pp = false := by
      cases hb : pyStrIsAlpha pp
      · rfl
      · exact absurd hb ha
    rw [if_pos (by simp [ha2])]
    constructor
    · constructor
      · intro _ hcon
        exact ha hcon.1
      · intro _
        rfl
    · intro hcon
      exact absurd (az_shape pp hcon.1 hcon.2).1 ha

/-- C2 witness: the amended characterisation instantiated at the concrete
input "ab_x" with expected tag "ab". -/
theorem lpid_C2_witness :
    (isShapeErr (LPID.from_string ['a', 'b', '_', 'x'] ['a', 'b']) = true ↔
      ¬(pyStrIsAlpha ['a', 'b'] = true ∧ pyStrIsLower ['a', 'b'] = true))
    ∧ ((['a', 'b'] ≠ ([] : List Char) ∧
        ∀ c ∈ (['a', 'b'] : List Char), 97 ≤ c.toNat ∧ c.toNat ≤ 122) →
        isShapeErr (LPID.from_string ['a', 'b', '_', 'x'] ['a', 'b']) = false) :=
  lpid_C2 ['a', 'b', '_', 'x'] ['a', 'b'] ['a', 'b'] ['x'] (by decide)

/-- C3 (confirmed): the validation pipeline checks, in order — (1) split on
the separator into exactly two parts, else `FormatError`; (2) shape of the
first part, else `InvalidPrefixShape`; (3) first part equals the expected
tag, else `PrefixMismatch`; (4) encoded part non-empty and of length 27,
else `InvalidUidLength`; (5) strict decode, else `MalformedUid`; each step
short-circuits and each failing step yields its own distinct error. -/
theorem lpid_C3 (s p : List Char) :
    ((pySplit '_' s).length ≠ 2 → LPID.from_string s p = .error (.formatError s))
    ∧ (∀ pp ee, pySplit '_' s = [pp, ee] →
        ((¬(pyStrIsAlpha pp = true ∧ pyStrIsLower pp = true) →
            isShapeErr (LPID.from_string s p) = true)
        ∧ (pyStrIsAlpha pp = true → pyStrIsLower pp = true → pp ≠ p →
            LPID.from_string s p = .error (.mismatch p pp))
        ∧ (pyStrIsAlpha pp = true → pyStrIsLower pp = true → pp = p → ee.length ≠ 27 →
            isUidLenErr (LPID.from_string s p) = true)
        ∧ (pyStrIsAlpha pp = true → pyStrIsLower pp = true → pp = p → ee.length = 27 →
            ((∀ e, KsuidMs.from_base62 ee = .error e →
                LPID.from_string s p = .error (.malformedUid e))
            ∧ (∀ u, KsuidMs.from_base62 ee = .ok u →
                LPID.from_string s p = .ok ⟨p, u⟩))))) := by
  constructor
  · intro hlen2
    unfold LPID.from_string
    rcases hps : pySplit '_' s with _ | ⟨pp, _ | ⟨ee, _ | ⟨z, zs⟩⟩⟩
    · rfl
    · rfl
    · rw [hps] at hlen2
      simp at hlen2
    · rfl
  · intro pp ee hps
    refine ⟨?_, ?_, ?_, ?_⟩
    · intro hcon
      rw [from_string_eq s p pp ee hps]
      by_cases ha : pyStrIsAlpha pp = true
      · have hl : ¬pyStrIsLower pp = true := fun hl => hcon ⟨ha, hl⟩
        have hl2 : pyStrIsLower pp = false := by
          cases hb : pyStrIsLower pp
          · rfl
          · exact absurd hb hl
        rw [if_neg (by simp [ha]), if_pos (by simp [hl2])]
        rfl
      · have ha2 : pyStrIsAlpha pp = false := by
          cases hb : pyStrIsAlpha pp
          · rfl
          · exact absurd hb ha
        rw [if_pos (by simp [ha2])]
        rfl
    · intro ha hl hne
      rw [from_string_eq s p pp ee hps]
      rw [if_neg (by simp [ha]), if_neg (by simp [hl]), if_pos hne]
    · intro ha hl hpe hlen
      rw [from_string_eq s p pp ee hps]
      rw [if_neg (by simp [ha]), if_neg (by simp [hl]), if_neg (by simp [hpe])]
      by_cases hemp : ee.isEmpty = true
      · rw [if_pos hemp]
        rfl
      · rw [if_neg hemp, if_pos hlen]
        rfl
    · intro ha hl hpe hlen
      rw [from_string_eq s p pp ee hps]
      rw [if_neg (by simp [ha]), if_neg (by simp [hl]), if_neg (by simp [hpe])]
      have hemp : ee.isEmpty = false := by
        cases hee : ee with
        | nil => rw [hee] at hlen; simp at hlen
        | cons a as => rfl
      rw [if_neg (by simp [hemp]), if_neg (by simp [hlen])]
      constructor
      · intro e hfb
        rw [hfb]
      · intro u hfb
        rw [hfb]

/-- C3 witness: each pipeline stage exercised at a concrete input — a
separator-free input gives `FormatError`, a wrong tag gives the mismatch
error, and a short encoded part gives the uid-length error. -/
theorem lpid_C3_witness :
    LPID.from_string ['a', 'b'] ['a', 'b'] = .error (.formatError ['a', 'b'])
    ∧ LPID.from_string ['x', '_', '0'] ['a'] = .error (.mismatch ['a'] ['x'])
    ∧ isUidLenErr (LPID.from_string ['a', '_', '0'] ['a']) = true :=
  ⟨(lpid_C3 ['a', 'b'] ['a', 'b']).1 (by decide),
   (((lpid_C3 ['x', '_', '0'] ['a']).2 ['x'] ['0'] (by decide)).2.1)
     (by decide) (by decide) (by decide),
   (((lpid_C3 ['a', '_', '0'] ['a']).2 ['a'] ['0'] (by decide)).2.2.1)
     (by decide) (by decide) (by decide) (by decide)⟩

/-- C4 (confirmed): between two identifiers, with equal tags `a < b` is
exactly `a.uid < b.uid` (and `a > b` exactly `a.uid > b.uid`); with
differing tags the outcome is exactly the lexicographic comparison of the
tags, whatever the uids. -/
theorem lpid_C4 (a b : LPID) :
    (a.pfx = b.pfx →
      LPID.lt a (.lpid b) = .ok (ksuidLt a.uid b.uid)
      ∧ LPID.gt a (.lpid b) = .ok (ksuidGt a.uid b.uid))
    ∧ (a.pfx ≠ b.pfx →
      LPID.lt a (.lpid b) = .ok (pyStrLt a.pfx b.pfx)
      ∧ LPID.gt a (.lpid b) = .ok (pyStrGt a.pfx b.pfx)) := by
  constructor
  · intro h
    constructor
    · simp [LPID.lt, h]
    · simp [LPID.gt, h]
  · intro h
    constructor
    · simp [LPID.lt, h]
    · simp [LPID.gt, h]

/-- C4 witness: the ordering equations at concrete identifiers with equal
tags and with differing tags. -/
theorem lpid_C4_witness :
    (LPID.lt ⟨['a'], ⟨0, 0⟩⟩ (.lpid ⟨['a'], ⟨1, 0⟩⟩) = .ok (ksuidLt ⟨0, 0⟩ ⟨1, 0⟩)
     ∧ LPID.gt ⟨['a'], ⟨0, 0⟩⟩ (.lpid ⟨['a'], ⟨1, 0⟩⟩) = .ok (ksuidGt ⟨0, 0⟩ ⟨1, 0⟩))
    ∧ (LPID.lt ⟨['a'], ⟨9, 9⟩⟩ (.lpid ⟨['b'], ⟨0, 0⟩⟩) = .ok (pyStrLt ['a'] ['b'])
     ∧ LPID.gt ⟨['a'], ⟨9, 9⟩⟩ (.lpid ⟨['b'], ⟨0, 0⟩⟩) = .ok (pyStrGt ['a'] ['b'])) :=
  ⟨(lpid_C4 ⟨['a'], ⟨0, 0⟩⟩ ⟨['a'], ⟨1, 0⟩⟩).1 (by decide),
   (lpid_C4 ⟨['a'], ⟨9, 9⟩⟩ ⟨['b'], ⟨0, 0⟩⟩).2 (by decide)⟩

/-- C5 (confirmed): order-comparing an identifier with a value of a
different kind always raises `TypeError` (never returns false), while
equality with such a value returns false and never raises; ordering between
two identifiers — differing tags included — never raises. -/
theorem lpid_C5 (a b : LPID) :
    LPID.lt a .other = .error .incomparable
    ∧ LPID.gt a .other = .error .incomparable
    ∧ LPID.eq a .other = false
    ∧ isOkB (LPID.lt a (.lpid b)) = true
    ∧ isOkB (LPID.gt a (.lpid b)) = true := by
  refine ⟨rfl, rfl, rfl, ?_, ?_⟩
  · by_cases h : a.pfx = b.pfx
    · simp [LPID.lt, h, isOkB]
    · simp [LPID.lt, h, isOkB]
  · by_cases h : a.pfx = b.pfx
    · simp [LPID.gt, h, isOkB]
    · simp [LPID.gt, h, isOkB]

/-- C6 (confirmed): the canonical string of every identifier has length
`|tag| + 1 + 27`; the separator contributes 1 and the collaborator's
encoding is always exactly 27 characters. -/
theorem lpid_C6 (x : LPID) :
    (LPID.str x).length = x.pfx.length + 1 + 27 := by
  simp [LPID.str, KsuidMs.to_base62, natToB62_length]

/-- C7 (confirmed): generating at representable instants `t1 < t2` (the
collaborator's millisecond field is 48 bits wide, so an instant is a value
below `2^48`) with the same tag yields strictly increasing identifiers,
whatever the entropy of each. -/
theorem lpid_C7 (p : List Char) (t1 t2 r1 r2 : Nat) (h12 : t1 < t2) (h2 : t2 < 2 ^ 48) :
    LPID.lt (LPID.generate p t1 r1) (.lpid (LPID.generate p t2 r2)) = .ok true := by
  simp [LPID.lt, LPID.generate, KsuidMs.new, ksuidLt]
  omega

/-- C7 witness: generation at instants 0 and 1 with tag "a". -/
theorem lpid_C7_witness :
    LPID.lt (LPID.generate ['a'] 0 3) (.lpid (LPID.generate ['a'] 1 2)) = .ok true :=
  lpid_C7 ['a'] 0 1 3 2 (by decide) (by decide)

/-- C8 (confirmed): the constructor and `generate` accept any tag — no
prefix-shape validation on this path — storing it verbatim; with a `KsuidMs`
source the constructor always succeeds, and with a string source it fails
exactly when the collaborator's strict decode fails, propagating that
failure. -/
theorem lpid_C8 (p s : List Char) (u : KsuidMs) (t entropy : Nat) :
    LPID.init p (.ksuidSrc u) = .ok ⟨p, u⟩
    ∧ (LPID.generate p t entropy).pfx = p
    ∧ (∀ u2, KsuidMs.from_base62 s = .ok u2 → LPID.init p (.strSrc s) = .ok ⟨p, u2⟩)
    ∧ (∀ e, KsuidMs.from_base62 s = .error e → LPID.init p (.strSrc s) = .error e) := by
  refine ⟨rfl, rfl, ?_, ?_⟩
  · intro u2 h
    simp [LPID.init, h]
  · intro e h
    simp [LPID.init, h]

/-- C8 witness: the tag "A_" — uppercase and containing the separator, so
violating the parse-side shape rule — is accepted verbatim by the
constructor and by `generate`; a decodable string source succeeds and an
undecodable one propagates the decoder's failure. -/
theorem lpid_C8_witness :
    LPID.init ['A', '_'] (.ksuidSrc ⟨4, 2⟩) = .ok ⟨['A', '_'], ⟨4, 2⟩⟩
    ∧ (LPID.generate ['A', '_'] 0 0).pfx = ['A', '_']
    ∧ LPID.init ['A', '_'] (.strSrc ['1']) = .ok ⟨['A', '_'], ⟨0, 1⟩⟩
    ∧ LPID.init ['A', '_'] (.strSrc ['!']) = .error .notBase62 :=
  ⟨(lpid_C8 ['A', '_'] ['1'] ⟨4, 2⟩ 0 0).1,
   (lpid_C8 ['A', '_'] ['1'] ⟨4, 2⟩ 0 0).2.1,
   (lpid_C8 ['A', '_'] ['1'] ⟨4, 2⟩ 0 0).2.2.1 ⟨0, 1⟩ (by decide),
   (lpid_C8 ['A', '_'] ['!'] ⟨4, 2⟩ 0 0).2.2.2 .notBase62 (by decide)⟩

/-- C9 (confirmed): both time accessors are pure read-throughs — equal by
definitional unfolding to the embedded uid's own accessors, with no further
computation. -/
theorem lpid_C9 (x : LPID) :
    LPID.datetime x = KsuidMs.datetime x.uid
    ∧ LPID.timestamp x = KsuidMs.timestamp x.uid :=
  ⟨rfl, rfl⟩

/-- C10 (confirmed): the constructor applies only the decoder — no
27-character check — so any decodable string of another length constructs
successfully, while `from_string` on the same encoded text (under a
shape-passing tag) surfaces the uid-length error before ever decoding. -/
theorem lpid_C10 (p s : List Char) (u : KsuidMs)
    (hok : KsuidMs.from_base62 s = .ok u) (hlen : s.length ≠ 27)
    (ha : pyStrIsAlpha p = true) (hl : pyStrIsLower p = true) :
    LPID.init p (.strSrc s) = .ok ⟨p, u⟩
    ∧ isUidLenErr (LPID.from_string (p ++ '_' :: s) p) = true := by
  constructor
  · simp [LPID.init, hok]
  · have hs : '_' ∉ s := by
      unfold KsuidMs.from_base62 at hok
      cases hv : val62 s with
      | none => rw [hv] at hok; exact absurd hok (by simp)
      | some n => exact val62_no_sep s n hv
    have hps : pySplit '_' (p ++ '_' :: s) = [p, s] :=
      pySplit_two '_' p s (pyStrIsAlpha_no_sep p ha) hs
    rw [from_string_eq _ p p s hps]
    rw [if_neg (by simp [ha]), if_neg (by simp [hl]), if_neg (by simp)]
    by_cases hemp : s.isEmpty = true
    · rw [if_pos hemp]
      rfl
    · rw [if_neg hemp, if_pos hlen]
      rfl

/-- C10 witness: the one-character string "1" decodes, so `LPID("ab", "1")`
succeeds while parsing "ab_1" with tag "ab" gives the uid-length error. -/
theorem lpid_C10_witness :
    LPID.init ['a', 'b'] (.strSrc ['1']) = .ok ⟨['a', 'b'], ⟨0, 1⟩⟩
    ∧ isUidLenErr (LPID.from_string (['a', 'b'] ++ '_' :: ['1']) ['a', 'b']) = true :=
  lpid_C10 ['a', 'b'] ['1'] ⟨0, 1⟩ (by decide) (by decide) (by decide) (by decide)
